import Mathlib

/-!
Shallow embedding of the logic-bearing parts of the `ai-development-tutorials`
repository:

* the conversation-history token-budget trimmer of
  `04_conversational_chat_with_token_limit_handling.py` (identical code in
  `5_conversational_chat_with_token_limit_handling.py`);
* the tool-calling orchestration loop of `10_function_calling.py`
  (identical loop in `12_responses_api/04_function_calling.py`) and the
  chat-completions variant of `9_function_calling_chain_functions.py`;
* the streaming chunk consumer of `07_streaming_responses.py`.

External collaborators (the tokenizer, the model endpoint, the Python `eval`
based tool lookup) are parameters: a token counter is any `String → Nat`, a
model endpoint is a prerecorded list of turns (or errors), and the tool
lookup is a partial map `String → Option (String → String)` (a `none` result
models the `NameError` that Python's `eval` raises on an undefined name).
-/

namespace TokenLimitChat

/-- A Python message dict, as an ordered list of key/value pairs
(`message.items()` iterates pairs in insertion order). -/
abbrev Message := List (String × String)

/-- Token contribution of one message's fields: the inner
`for key, value in message.items()` loop of `calculate_token_count`
(`04_conversational_chat_with_token_limit_handling.py`, lines 97-101):
each field value is encoded and counted, and a field whose key is
`"name"` contributes one additional token. -/
def message_tokens (enc : String → Nat) : Message → Nat
  | [] => 0
  | kv :: rest =>
      enc kv.2 + (if kv.1 = "name" then 1 else 0) + message_tokens enc rest

/-- Token contribution of the messages: the outer `for message in conversation`
loop (lines 95-101), adding 3 framing tokens per message. -/
def conversation_tokens (enc : String → Nat) : List Message → Nat
  | [] => 0
  | m :: rest => 3 + message_tokens enc m + conversation_tokens enc rest

/-- `calculate_token_count` (lines 74-102): the total starts at 3 (reply
priming) and accumulates each message's contribution.  The tokenizer
(`tiktoken`) is the external parameter `enc`. -/
def calculate_token_count (enc : String → Nat) (conversation : List Message) : Nat :=
  3 + conversation_tokens enc conversation

/-- One-pass-per-fuel-unit rendering of the `while` loop of
`trim_conversation` (lines 112-119): while the estimated total plus the
response headroom exceeds the limit and more than 2 messages remain, pop
index 1 twice and recount.  Each iteration removes two messages from a
list of length at least 3, so `conversation.length` units of fuel are
always enough; `trim_loop_fuel_irrelevant` below shows the result is
fuel-independent from that point on, and `trim_conversation_eq_loop` shows
the resulting function satisfies exactly the loop's recurrence. -/
def trim_loop (enc : String → Nat) (fuel : Nat) (conversation : List Message)
    (max_response_tokens token_limit : Int) : List Message :=
  match fuel with
  | 0 => conversation
  | fuel + 1 =>
      if (calculate_token_count enc conversation : Int) + max_response_tokens > token_limit
          ∧ conversation.length > 2 then
        trim_loop enc fuel ((conversation.eraseIdx 1).eraseIdx 1)
          max_response_tokens token_limit
      else
        conversation

/-- `trim_conversation` (lines 107-120). -/
def trim_conversation (enc : String → Nat) (conversation : List Message)
    (max_response_tokens token_limit : Int) : List Message :=
  trim_loop enc conversation.length conversation max_response_tokens token_limit

theorem length_eraseIdx_one {α : Type} (l : List α) (h : 1 < l.length) :
    (l.eraseIdx 1).length = l.length - 1 := by
  rw [List.length_eraseIdx]
  simp [h]

theorem trim_loop_fuel_irrelevant (enc : String → Nat)
    (maxR limit : Int) :
    ∀ (f₁ f₂ : Nat) (conversation : List Message),
      conversation.length ≤ f₁ → conversation.length ≤ f₂ →
      trim_loop enc f₁ conversation maxR limit
        = trim_loop enc f₂ conversation maxR limit := by
  intro f₁
  induction f₁ using Nat.strong_induction_on with
  | _ f₁ ih =>
    intro f₂ conversation h₁ h₂
    match f₁, f₂ with
    | 0, f₂ =>
      have : conversation = [] := List.length_eq_zero.mp (Nat.le_zero.mp h₁)
      subst this
      cases f₂ <;> simp [trim_loop]
    | g + 1, 0 =>
      have : conversation = [] := List.length_eq_zero.mp (Nat.le_zero.mp h₂)
      subst this
      simp [trim_loop]
    | g + 1, h + 1 =>
      show trim_loop enc (g + 1) conversation maxR limit
        = trim_loop enc (h + 1) conversation maxR limit
      rw [trim_loop, trim_loop]
      by_cases hc : (calculate_token_count enc conversation : Int) + maxR > limit
          ∧ conversation.length > 2
      · rw [if_pos hc, if_pos hc]
        have hlen3 : 2 < conversation.length := hc.2
        have hlen1 : 1 < conversation.length := by omega
        have e1 : (conversation.eraseIdx 1).length = conversation.length - 1 :=
          length_eraseIdx_one conversation hlen1
        have hlen1' : 1 < (conversation.eraseIdx 1).length := by omega
        have e2 : ((conversation.eraseIdx 1).eraseIdx 1).length
            = (conversation.eraseIdx 1).length - 1 :=
          length_eraseIdx_one _ hlen1'
        exact ih g (by omega) h _ (by omega) (by omega)
      · rw [if_neg hc, if_neg hc]

theorem trim_loop_step (enc : String → Nat) (fuel : Nat) (conversation : List Message)
    (maxR limit : Int) :
    trim_loop enc (fuel + 1) conversation maxR limit
      = if (calculate_token_count enc conversation : Int) + maxR > limit
            ∧ conversation.length > 2 then
          trim_loop enc fuel ((conversation.eraseIdx 1).eraseIdx 1) maxR limit
        else conversation := rfl

/-- The fueled definition satisfies precisely the `while` loop's recurrence:
this is the defining equation of `trim_conversation` as written in the
Python source. -/
theorem trim_conversation_eq_loop (enc : String → Nat) (conversation : List Message)
    (maxR limit : Int) :
    trim_conversation enc conversation maxR limit
      = if (calculate_token_count enc conversation : Int) + maxR > limit
            ∧ conversation.length > 2 then
          trim_conversation enc ((conversation.eraseIdx 1).eraseIdx 1) maxR limit
        else conversation := by
  unfold trim_conversation
  by_cases hc : (calculate_token_count enc conversation : Int) + maxR > limit
      ∧ conversation.length > 2
  · rw [if_pos hc]
    have hlen3 : 2 < conversation.length := hc.2
    have e1 : (conversation.eraseIdx 1).length = conversation.length - 1 :=
      length_eraseIdx_one conversation (by omega)
    have e2 : ((conversation.eraseIdx 1).eraseIdx 1).length
        = (conversation.eraseIdx 1).length - 1 :=
      length_eraseIdx_one _ (by omega)
    have hL : conversation.length = (conversation.length - 1) + 1 := by omega
    rw [hL, trim_loop_step, if_pos hc]
    exact trim_loop_fuel_irrelevant enc maxR limit _ _ _ (by omega) (by omega)
  · rw [if_neg hc]
    cases conversation with
    | nil => rfl
    | cons m rest =>
      rw [show (m :: rest).length = rest.length + 1 from rfl, trim_loop_step, if_neg hc]

theorem trim_loop_sublist (enc : String → Nat) (maxR limit : Int) :
    ∀ (fuel : Nat) (conversation : List Message),
      (trim_loop enc fuel conversation maxR limit).Sublist conversation := by
  intro fuel
  induction fuel with
  | zero => intro conversation; exact List.Sublist.refl _
  | succ f ih =>
    intro conversation
    rw [trim_loop_step]
    by_cases hc : (calculate_token_count enc conversation : Int) + maxR > limit
        ∧ conversation.length > 2
    · rw [if_pos hc]
      exact (ih _).trans
        (((conversation.eraseIdx 1).eraseIdx_sublist 1).trans
          (conversation.eraseIdx_sublist 1))
    · rw [if_neg hc]

/-- C9: `trim_conversation` only ever removes whole messages from the middle
of the conversation: its result is a sublist (order-preserving, message-
preserving subsequence) of the input, for every tokenizer, budget, and
conversation. -/
theorem trim_conversation_sublist (enc : String → Nat) (conversation : List Message)
    (maxR limit : Int) :
    (trim_conversation enc conversation maxR limit).Sublist conversation :=
  trim_loop_sublist enc maxR limit conversation.length conversation

/-- C6: a conversation already within the budget
(`token count + max_response_tokens ≤ token_limit`) is returned by
`trim_conversation` completely unchanged. -/
theorem trim_conversation_within_budget_id (enc : String → Nat)
    (conversation : List Message) (maxR limit : Int)
    (h : (calculate_token_count enc conversation : Int) + maxR ≤ limit) :
    trim_conversation enc conversation maxR limit = conversation := by
  rw [trim_conversation_eq_loop, if_neg]
  intro hc
  exact absurd h (by omega)

/-- Witness for `trim_conversation_within_budget_id` at a concrete
conversation and budget. -/
theorem trim_conversation_within_budget_id_witness :
    (calculate_token_count (fun _ => 1)
        [[("role", "developer"), ("content", "be brief")],
         [("role", "user"), ("content", "hi")]] : Int) + 10 ≤ 100
    ∧ trim_conversation (fun _ => 1)
        [[("role", "developer"), ("content", "be brief")],
         [("role", "user"), ("content", "hi")]] 10 100
      = [[("role", "developer"), ("content", "be brief")],
         [("role", "user"), ("content", "hi")]] :=
  ⟨by decide, trim_conversation_within_budget_id (fun _ => 1) _ 10 100 (by decide)⟩

/-- C1 / source line 111 ("Make sure to leave at least 2 messages in the
conversation history"): evaluation of `trim_conversation` on an over-budget
3-message conversation whose last message is the newest user question.  The
`while` body pops index 1 twice per iteration, so the second pop deletes the
final (newest user) message and only the leading instruction message is
returned — length 1, below the documented 2-message floor. -/
theorem trim_conversation_drops_newest_at_length_three :
    trim_conversation (fun _ => 0)
        [[("role", "developer"), ("content", "instructions")],
         [("role", "assistant"), ("content", "hello")],
         [("role", "user"), ("content", "newest question")]] 0 0
      = [[("role", "developer"), ("content", "instructions")]] := by
  decide

theorem message_tokens_eq_sum (enc : String → Nat) (m : Message)
    (h : m.countP (fun kv => kv.1 == "name") ≤ 1) :
    message_tokens enc m
      = (m.map (fun kv => enc kv.2)).sum
        + (if m.any (fun kv => kv.1 == "name") then 1 else 0) := by
  induction m with
  | nil => simp [message_tokens]
  | cons kv rest ih =>
    by_cases hkv : kv.1 = "name"
    · have hb : (kv.1 == "name") = true := by simp [hkv]
      have hrest : rest.countP (fun kv => kv.1 == "name") = 0 := by
        have hcc : (kv :: rest).countP (fun kv => kv.1 == "name")
            = rest.countP (fun kv => kv.1 == "name") + 1 :=
          List.countP_cons_of_pos _ _ hb
        rw [hcc] at h
        omega
      have hany : rest.any (fun kv => kv.1 == "name") = false := by
        rw [List.any_eq_false]
        intro x hx
        have hall := List.countP_eq_zero.mp hrest
        simpa using hall x hx
      rw [message_tokens, ih (by omega)]
      simp only [List.map_cons, List.sum_cons, List.any_cons, hb, hany,
        Bool.true_or, if_pos hkv]
      simp
      omega
    · have hb : (kv.1 == "name") = false := by simp [hkv]
      have hrest : rest.countP (fun kv => kv.1 == "name") ≤ 1 := by
        have hcc : (kv :: rest).countP (fun kv => kv.1 == "name")
            = rest.countP (fun kv => kv.1 == "name") :=
          List.countP_cons_of_neg _ _ (by simp [hb])
        rw [hcc] at h
        exact h
      rw [message_tokens, ih hrest]
      simp only [List.map_cons, List.sum_cons, List.any_cons, hb,
        Bool.false_or, if_neg hkv]
      omega

theorem conversation_tokens_eq_sum (enc : String → Nat) (conversation : List Message)
    (h : ∀ m ∈ conversation, m.countP (fun kv => kv.1 == "name") ≤ 1) :
    conversation_tokens enc conversation
      = (conversation.map (fun m =>
          3 + (m.map (fun kv => enc kv.2)).sum
            + (if m.any (fun kv => kv.1 == "name") then 1 else 0))).sum := by
  induction conversation with
  | nil => simp [conversation_tokens]
  | cons m rest ih =>
    rw [conversation_tokens, message_tokens_eq_sum enc m (h m (by simp)),
      ih (fun x hx => h x (by simp [hx]))]
    simp
    omega

theorem calculate_token_count_role_content (enc : String → Nat)
    (ms : List (String × String)) :
    calculate_token_count enc (ms.map (fun rc => [("role", rc.1), ("content", rc.2)]))
      = 3 + (ms.map (fun rc => 3 + enc rc.1 + enc rc.2)).sum := by
  unfold calculate_token_count
  congr 1
  induction ms with
  | nil => simp [conversation_tokens]
  | cons rc rest ih =>
    rw [List.map_cons, conversation_tokens, ih]
    simp [message_tokens]
    omega

/-- C4: `calculate_token_count` returns 3 (per-request priming) plus, for
every message, 3 (per-message framing) plus the tokenizer count of each
field value, plus 1 extra when the message carries a `name` field (messages
are dicts, so the `name` key occurs at most once); in particular, for
messages holding only `role` and `content`, the total is
`3 + Σ (3 + enc role + enc content)`. -/
theorem calculate_token_count_spec (enc : String → Nat)
    (conversation : List Message) (ms : List (String × String))
    (hkeys : ∀ m ∈ conversation, m.countP (fun kv => kv.1 == "name") ≤ 1) :
    calculate_token_count enc conversation
      = 3 + (conversation.map (fun m =>
          3 + (m.map (fun kv => enc kv.2)).sum
            + (if m.any (fun kv => kv.1 == "name") then 1 else 0))).sum
    ∧ calculate_token_count enc (ms.map (fun rc => [("role", rc.1), ("content", rc.2)]))
      = 3 + (ms.map (fun rc => 3 + enc rc.1 + enc rc.2)).sum := by
  constructor
  · unfold calculate_token_count
    rw [conversation_tokens_eq_sum enc conversation hkeys]
  · exact calculate_token_count_role_content enc ms

/-- Witness for `calculate_token_count_spec` on a concrete conversation
(one message with a `name` field) and a concrete role/content list. -/
theorem calculate_token_count_spec_witness :
    calculate_token_count (fun _ => 2)
        [[("role", "developer"), ("content", "sys")],
         [("role", "user"), ("name", "alice"), ("content", "hi")]]
      = 3 + ([[("role", "developer"), ("content", "sys")],
              [("role", "user"), ("name", "alice"), ("content", "hi")]].map
          (fun m => 3 + (m.map (fun kv => (fun _ => (2 : Nat)) kv.2)).sum
            + (if m.any (fun kv => kv.1 == "name") then 1 else 0))).sum
    ∧ calculate_token_count (fun _ => 2)
        ([("user", "what time is it")].map
          (fun rc => [("role", rc.1), ("content", rc.2)]))
      = 3 + ([("user", "what time is it")].map
          (fun rc => 3 + (fun _ => (2 : Nat)) rc.1 + (fun _ => (2 : Nat)) rc.2)).sum :=
  calculate_token_count_spec (fun _ => 2)
    [[("role", "developer"), ("content", "sys")],
     [("role", "user"), ("name", "alice"), ("content", "hi")]]
    [("user", "what time is it")] (by decide)

end TokenLimitChat

namespace FunctionCalling

/-- One entry of `response.output` in `10_function_calling.py`: an entry of
type `"function_call"` carries a `call_id`, a `name`, and JSON-encoded
`arguments` (lines 318-321); every other entry type is skipped by the
executor (line 312) and only contributes text, abstracted as `message`. -/
inductive OutputItem
  | function_call (call_id tool_name arguments : String)
  | message (content : String)
deriving DecidableEq

/-- The tool lookup `eval(chosen_function)` (line 328): a name either
resolves to a callable (abstracted as `String → String` on the JSON-encoded
arguments) or raises `NameError`, modelled by `none`. -/
def ToolRegistry : Type := String → Option (String → String)

/-- Entries of the `conversation` array of `10_function_calling.py`: plain
role/content dicts (lines 248, 267, 375), raw model output items
(`conversation += response.output`, line 303), and
`function_call_output` dicts (lines 335-339). -/
inductive ConvItem
  | chat (role content : String)
  | output (item : OutputItem)
  | function_call_output (call_id output : String)
deriving DecidableEq

/-- The loop guard `response.output[0].type == "function_call"` (line 296):
it inspects only the type of the first output item. -/
def isToolCallTurn : List OutputItem → Bool
  | OutputItem.function_call _ _ _ :: _ => true
  | _ => false

/-- The ToolCallRequests of a model turn: the `function_call`-typed entries,
in the order they appear in `response.output`. -/
def requests (turn : List OutputItem) : List (String × String × String) :=
  turn.filterMap fun i =>
    match i with
    | OutputItem.function_call c n a => some (c, n, a)
    | OutputItem.message _ => none

/-- The `for response_message in response.output` executor (lines 309-339):
skip non-`function_call` entries; otherwise look the name up (a failed
lookup is Python's `NameError`, which escapes the loop, keeping the
entries appended so far) and append one `function_call_output` entry per
executed request, in iteration order.  Returns the appended entries and
the error, if one was raised. -/
def processTurnAux (registry : ToolRegistry) : List OutputItem → List ConvItem × Option String
  | [] => ([], none)
  | OutputItem.message _ :: rest => processTurnAux registry rest
  | OutputItem.function_call call_id tool_name args :: rest =>
      match registry tool_name with
      | none => ([], some (String.append (String.append "name " tool_name) " is not defined"))
      | some f =>
          let r := processTurnAux registry rest
          (ConvItem.function_call_output call_id (f args) :: r.1, r.2)

/-- One body of the `while` loop up to the next model call (lines 296-339):
`conversation += response.output`, then execute the requests in order. -/
def processTurn (registry : ToolRegistry) (conversation : List ConvItem)
    (turn : List OutputItem) : List ConvItem × Option String :=
  (conversation ++ turn.map ConvItem.output ++ (processTurnAux registry turn).1,
   (processTurnAux registry turn).2)

/-- `response.output_text`: the concatenated text of the non-tool-call
output items of a turn. -/
def output_text (turn : List OutputItem) : String :=
  String.join (turn.filterMap fun i =>
    match i with
    | OutputItem.message c => some c
    | OutputItem.function_call _ _ _ => none)

/-- How processing of one user question ends: with a final answer appended
(lines 363-375), with an exception caught by the outer per-question handler
(lines 377-380), or — a model artifact — with the prerecorded model stub
exhausted while the loop still wanted another call. -/
inductive Outcome
  | answered (conversation : List ConvItem) (calls : Nat)
  | aborted (err : String) (conversation : List ConvItem) (calls : Nat)
  | exhausted (conversation : List ConvItem) (calls : Nat)
deriving DecidableEq

def callsOf : Outcome → Nat
  | Outcome.answered _ calls => calls
  | Outcome.aborted _ _ calls => calls
  | Outcome.exhausted _ calls => calls

def convOf : Outcome → List ConvItem
  | Outcome.answered conversation _ => conversation
  | Outcome.aborted _ conversation _ => conversation
  | Outcome.exhausted conversation _ => conversation

/-- The external model endpoint, prerecorded: each `client.responses.create`
call either returns the next turn or raises a provider error. -/
abbrev ModelStub := List (Except String (List OutputItem))

/-- The `while response.output[0].type == "function_call"` loop
(lines 296-357).  `current` is the last received response, `calls` counts
the `client.responses.create` calls made so far.  Note the faithful
rendering of the inner `except` clause (lines 353-355): its `continue`
re-enters the `while` loop with the *stale* `current`, so the already
processed tool-call turn is appended and executed again and the model call
is retried — it does not abandon the question. -/
def runLoop (registry : ToolRegistry) (conversation : List ConvItem)
    (stub : ModelStub) (current : List OutputItem) (calls : Nat) : Outcome :=
  if isToolCallTurn current then
    match processTurn registry conversation current with
    | (conversation', some e) => Outcome.aborted e conversation' calls
    | (conversation', none) =>
        match stub with
        | [] => Outcome.exhausted conversation' calls
        | Except.ok turn :: rest => runLoop registry conversation' rest turn (calls + 1)
        | Except.error _ :: rest => runLoop registry conversation' rest current (calls + 1)
  else
    Outcome.answered (conversation ++ [ConvItem.chat "assistant" (output_text current)]) calls
termination_by stub.length
decreasing_by
  all_goals simp


/-- One iteration of the per-question loop (lines 265-380): append the user
question, make the first model call (an error here is caught by the outer
handler, abandoning the question), then run the tool-call loop. -/
def runQuestion (registry : ToolRegistry) (conversation : List ConvItem)
    (question : String) (stub : ModelStub) : Outcome :=
  let conversation := conversation ++ [ConvItem.chat "user" question]
  match stub with
  | [] => Outcome.exhausted conversation 0
  | Except.ok turn :: rest => runLoop registry conversation rest turn 1
  | Except.error e :: _ => Outcome.aborted e conversation 1

/-- The `for question in questions` driver: every question is processed
(the outer `except` ends in `continue`), each starting from the
conversation state the previous question left behind. -/
def runQuestions (registry : ToolRegistry) (conversation : List ConvItem) :
    List (String × ModelStub) → List Outcome
  | [] => []
  | (q, stub) :: rest =>
      let o := runQuestion registry conversation q stub
      o :: runQuestions registry (convOf o) rest

theorem runQuestions_length (registry : ToolRegistry) :
    ∀ (qs : List (String × ModelStub)) (conversation : List ConvItem),
      (runQuestions registry conversation qs).length = qs.length := by
  intro qs
  induction qs with
  | nil => intro conversation; rfl
  | cons q rest ih => intro conversation; simp [runQuestions, ih]

theorem length_filterMap_of_isSome {α β : Type} (g : α → Option β) :
    ∀ (l : List α), (∀ x ∈ l, (g x).isSome) → (l.filterMap g).length = l.length := by
  intro l
  induction l with
  | nil => intro _; rfl
  | cons x rest ih =>
    intro h
    obtain ⟨y, hy⟩ := Option.isSome_iff_exists.mp (h x (by simp))
    rw [List.filterMap_cons, hy]
    simp [ih fun z hz => h z (by simp [hz])]

theorem processTurnAux_eq_of_defined (registry : ToolRegistry) :
    ∀ (turn : List OutputItem),
      (∀ r ∈ requests turn, (registry r.2.1).isSome) →
      processTurnAux registry turn
        = ((requests turn).filterMap (fun r => (registry r.2.1).map
            (fun f => ConvItem.function_call_output r.1 (f r.2.2))), none) := by
  intro turn
  induction turn with
  | nil => intro _; rfl
  | cons i rest ih =>
    intro h
    cases i with
    | message c =>
      rw [processTurnAux, ih (by simpa [requests, List.filterMap_cons] using h)]
      simp [requests, List.filterMap_cons]
    | function_call call_id tool_name args =>
      have hmem : ((call_id, tool_name, args) : String × String × String)
          ∈ requests (OutputItem.function_call call_id tool_name args :: rest) := by
        simp [requests, List.filterMap_cons]
      obtain ⟨f, hf⟩ := Option.isSome_iff_exists.mp (h _ hmem)
      have hrest : ∀ r ∈ requests rest, (registry r.2.1).isSome := by
        intro r hr
        exact h r (by simp [requests, List.filterMap_cons] at hr ⊢; right; exact hr)
      rw [processTurnAux, hf]
      simp only [requests, List.filterMap_cons]
      rw [ih hrest]
      simp [requests, hf]

/-- C2 (amended): in the responses-API orchestrator of
`10_function_calling.py`, when every requested tool name is defined, the
turn processing that precedes the next model call appends, after the whole
assistant turn (`conversation += response.output`), exactly one
`function_call_output` entry per ToolCallRequest, in the order the requests
appeared in the turn. -/
theorem processTurn_executes_all_in_order (registry : ToolRegistry)
    (conversation : List ConvItem) (turn : List OutputItem)
    (h : ∀ r ∈ requests turn, (registry r.2.1).isSome) :
    processTurn registry conversation turn
      = (conversation ++ turn.map ConvItem.output
          ++ (requests turn).filterMap (fun r => (registry r.2.1).map
                (fun f => ConvItem.function_call_output r.1 (f r.2.2))), none)
    ∧ ((requests turn).filterMap (fun r => (registry r.2.1).map
          (fun f => ConvItem.function_call_output r.1 (f r.2.2)))).length
        = (requests turn).length := by
  constructor
  · unfold processTurn
    rw [processTurnAux_eq_of_defined registry turn h]
  · exact length_filterMap_of_isSome _ _ (fun r hr => by
      have := h r hr
      simpa [Option.isSome_map] using this)

/-- Witness for `processTurn_executes_all_in_order`: a turn interleaving a
text item between two tool-call requests, against a registry defining both
tools. -/
theorem processTurn_executes_all_in_order_witness :
    processTurn
        (fun n => if n = "get_last_build" then some (fun a => String.append "A:" a)
                  else if n = "get_build_information" then some (fun a => a) else none)
        [ConvItem.chat "user" "q"]
        [OutputItem.function_call "c1" "get_last_build" "x",
         OutputItem.message "thinking",
         OutputItem.function_call "c2" "get_build_information" "y"]
      = ([ConvItem.chat "user" "q"]
          ++ [OutputItem.function_call "c1" "get_last_build" "x",
              OutputItem.message "thinking",
              OutputItem.function_call "c2" "get_build_information" "y"].map ConvItem.output
          ++ (requests [OutputItem.function_call "c1" "get_last_build" "x",
              OutputItem.message "thinking",
              OutputItem.function_call "c2" "get_build_information" "y"]).filterMap
              (fun r => ((fun n => if n = "get_last_build" then some (fun a => String.append "A:" a)
                  else if n = "get_build_information" then some (fun a => a) else none) r.2.1).map
                (fun f => ConvItem.function_call_output r.1 (f r.2.2))), none)
    ∧ ((requests [OutputItem.function_call "c1" "get_last_build" "x",
          OutputItem.message "thinking",
          OutputItem.function_call "c2" "get_build_information" "y"]).filterMap
          (fun r => ((fun n => if n = "get_last_build" then some (fun a => String.append "A:" a)
              else if n = "get_build_information" then some (fun a => a) else none) r.2.1).map
            (fun f => ConvItem.function_call_output r.1 (f r.2.2)))).length
        = (requests [OutputItem.function_call "c1" "get_last_build" "x",
            OutputItem.message "thinking",
            OutputItem.function_call "c2" "get_build_information" "y"]).length :=
  processTurn_executes_all_in_order
    (fun n => if n = "get_last_build" then some (fun a => String.append "A:" a)
              else if n = "get_build_information" then some (fun a => a) else none)
    [ConvItem.chat "user" "q"]
    [OutputItem.function_call "c1" "get_last_build" "x",
     OutputItem.message "thinking",
     OutputItem.function_call "c2" "get_build_information" "y"]
    (by decide)

end FunctionCalling

namespace ChatFunctionCalling

/-!
The chat-completions variant of the orchestrator,
`9_function_calling_chain_functions.py` (lines 236-272): the loop reads
only `response.choices[0].message.tool_calls[0]` — the *first* tool call of
the turn — executes it, appends the assistant's function-call record and
one function-role result message, and immediately resubmits.
-/

/-- Entries of the `conversation` array of
`9_function_calling_chain_functions.py`: role/content dicts, the assistant
function-call record (lines 253-263), and the `"role": "function"` result
message (lines 266-272). -/
inductive ChatConvItem
  | chat (role content : String)
  | assistant_tool_call (role tool_name arguments : String)
  | function_result (tool_name content : String)
deriving DecidableEq

/-- One `while` body of `9_function_calling_chain_functions.py` up to the
next model call: `tool_calls` is the turn's list of (name, arguments)
tool-call requests; only `tool_calls[0]` is looked at.  As in
`FunctionCalling.processTurnAux`, a failed name lookup is Python's
`NameError`. -/
def processTurnChat (registry : String → Option (String → String))
    (conversation : List ChatConvItem) (role : String)
    (tool_calls : List (String × String)) : List ChatConvItem × Option String :=
  match tool_calls with
  | [] => (conversation, some "list index out of range")
  | (tool_name, args) :: _ =>
      match registry tool_name with
      | none => (conversation,
          some (String.append (String.append "name " tool_name) " is not defined"))
      | some f =>
          (conversation
            ++ [ChatConvItem.assistant_tool_call role tool_name args,
                ChatConvItem.function_result tool_name (f args)], none)

/-- Number of tool-result messages among the appended entries. -/
def countResults (conversation : List ChatConvItem) : Nat :=
  conversation.countP fun i =>
    match i with
    | ChatConvItem.function_result _ _ => true
    | _ => false

/-- C2 counterexample: a model turn of `9_function_calling_chain_functions.py`
carrying two ToolCallRequests.  Both tools are defined, yet the body
executes and appends a result for the first request only — `toolB` is never
invoked and gets no ToolResult — before the next model call is issued, so
the claim "every ToolCallRequest in the turn is executed and gets exactly
one ToolResult before the next model call" is false on this orchestrator. -/
theorem processTurnChat_executes_only_first :
    processTurnChat
        (fun n => if n = "toolA" then some (fun _ => "resultA")
                  else if n = "toolB" then some (fun _ => "resultB") else none)
        [] "assistant" [("toolA", "1"), ("toolB", "2")]
      = ([ChatConvItem.assistant_tool_call "assistant" "toolA" "1",
          ChatConvItem.function_result "toolA" "resultA"], none)
    ∧ countResults (processTurnChat
        (fun n => if n = "toolA" then some (fun _ => "resultA")
                  else if n = "toolB" then some (fun _ => "resultB") else none)
        [] "assistant" [("toolA", "1"), ("toolB", "2")]).1 = 1
    ∧ [("toolA", "1"), ("toolB", "2")].length = 2 := by
  decide

end ChatFunctionCalling

namespace FunctionCalling

theorem runLoop_exit (registry : ToolRegistry) (conversation : List ConvItem)
    (stub : ModelStub) (current : List OutputItem) (calls : Nat)
    (h : isToolCallTurn current = false) :
    runLoop registry conversation stub current calls
      = Outcome.answered
          (conversation ++ [ConvItem.chat "assistant" (output_text current)]) calls := by
  rw [runLoop]
  simp [h]

theorem runLoop_abort (registry : ToolRegistry) (conversation : List ConvItem)
    (stub : ModelStub) (current : List OutputItem) (calls : Nat) (e : String)
    (h1 : isToolCallTurn current = true)
    (h2 : (processTurnAux registry current).2 = some e) :
    runLoop registry conversation stub current calls
      = Outcome.aborted e
          (conversation ++ current.map ConvItem.output
            ++ (processTurnAux registry current).1) calls := by
  rw [runLoop]
  simp [h1, processTurn, h2]

theorem runLoop_ok_nil (registry : ToolRegistry) (conversation : List ConvItem)
    (current : List OutputItem) (calls : Nat)
    (h1 : isToolCallTurn current = true)
    (h2 : (processTurnAux registry current).2 = none) :
    runLoop registry conversation [] current calls
      = Outcome.exhausted (processTurn registry conversation current).1 calls := by
  rw [runLoop]
  simp [h1, processTurn, h2]

theorem runLoop_ok_cons (registry : ToolRegistry) (conversation : List ConvItem)
    (turn current : List OutputItem) (rest : ModelStub) (calls : Nat)
    (h1 : isToolCallTurn current = true)
    (h2 : (processTurnAux registry current).2 = none) :
    runLoop registry conversation (Except.ok turn :: rest) current calls
      = runLoop registry (processTurn registry conversation current).1
          rest turn (calls + 1) := by
  rw [runLoop]
  simp [h1, processTurn, h2]

theorem runLoop_err_cons (registry : ToolRegistry) (conversation : List ConvItem)
    (e : String) (current : List OutputItem) (rest : ModelStub) (calls : Nat)
    (h1 : isToolCallTurn current = true)
    (h2 : (processTurnAux registry current).2 = none) :
    runLoop registry conversation (Except.error e :: rest) current calls
      = runLoop registry (processTurn registry conversation current).1
          rest current (calls + 1) := by
  rw [runLoop]
  simp [h1, processTurn, h2]

theorem runLoop_count (registry : ToolRegistry) (tf : List OutputItem)
    (h3 : isToolCallTurn tf = false) :
    ∀ (ts : List (List OutputItem)) (current : List OutputItem)
      (conversation : List ConvItem) (calls : Nat),
      isToolCallTurn current = true →
      (processTurnAux registry current).2 = none →
      (∀ t ∈ ts, isToolCallTurn t = true ∧ (processTurnAux registry t).2 = none) →
      ∃ conversation',
        runLoop registry conversation ((ts ++ [tf]).map Except.ok) current calls
          = Outcome.answered conversation' (calls + ts.length + 1) := by
  intro ts
  induction ts with
  | nil =>
    intro current conversation calls h1 h2 _
    refine ⟨(processTurn registry conversation current).1
      ++ [ConvItem.chat "assistant" (output_text tf)], ?_⟩
    simp only [List.nil_append, List.map_cons, List.map_nil]
    rw [runLoop_ok_cons registry conversation tf current [] calls h1 h2,
      runLoop_exit registry _ [] tf (calls + 1) h3]
    rfl
  | cons t rest ih =>
    intro current conversation calls h1 h2 hall
    simp only [List.cons_append, List.map_cons]
    rw [runLoop_ok_cons registry conversation t current ((rest ++ [tf]).map Except.ok)
      calls h1 h2]
    obtain ⟨conversation', hc⟩ := ih t (processTurn registry conversation current).1 (calls + 1)
      (hall t (by simp)).1 (hall t (by simp)).2
      (fun x hx => hall x (by simp [hx]))
    refine ⟨conversation', ?_⟩
    rw [hc]
    have : calls + 1 + rest.length + 1 = calls + (t :: rest).length + 1 := by
      simp [List.length_cons]
      omega
    rw [this]

/-- C5 (amended): against a prerecorded model endpoint whose first `k` turns
each *begin with* a `function_call` output item (the form of tool-call turn
that the loop guard `response.output[0].type == "function_call"` detects)
and execute without error, followed by a turn that does not begin with one,
the orchestration loop of `10_function_calling.py` terminates on that final
turn having issued exactly `k + 1` model calls. -/
theorem orchestration_model_call_count (registry : ToolRegistry)
    (conversation : List ConvItem) (question : String)
    (ts : List (List OutputItem)) (tf : List OutputItem)
    (h1 : ∀ t ∈ ts, isToolCallTurn t = true ∧ (processTurnAux registry t).2 = none)
    (h3 : isToolCallTurn tf = false) :
    ∃ conversation',
      runQuestion registry conversation question ((ts ++ [tf]).map Except.ok)
        = Outcome.answered conversation' (ts.length + 1) := by
  cases ts with
  | nil =>
    refine ⟨conversation ++ [ConvItem.chat "user" question]
      ++ [ConvItem.chat "assistant" (output_text tf)], ?_⟩
    show runLoop registry (conversation ++ [ConvItem.chat "user" question]) [] tf 1
      = _
    rw [runLoop_exit registry _ [] tf 1 h3]
    rfl
  | cons t rest =>
    have step : runQuestion registry conversation question (((t :: rest) ++ [tf]).map Except.ok)
        = runLoop registry (conversation ++ [ConvItem.chat "user" question])
            ((rest ++ [tf]).map Except.ok) t 1 := by
      rfl
    obtain ⟨conversation', hc⟩ := runLoop_count registry tf h3 rest t
      (conversation ++ [ConvItem.chat "user" question]) 1
      (h1 t (by simp)).1 (h1 t (by simp)).2
      (fun x hx => h1 x (by simp [hx]))
    refine ⟨conversation', ?_⟩
    rw [step, hc]
    have : 1 + rest.length + 1 = (t :: rest).length + 1 := by
      simp [List.length_cons]
      omega
    rw [this]

/-- Witness for `orchestration_model_call_count`: one error-free tool-call
turn followed by a plain-text turn yields exactly 2 model calls. -/
theorem orchestration_model_call_count_witness :
    ∃ conversation',
      runQuestion (fun _ => some (fun _ => "r")) [] "q"
          (([[OutputItem.function_call "c1" "get_last_build" "{}"]]
            ++ [[OutputItem.message "done"]]).map Except.ok)
        = Outcome.answered conversation'
            ([[OutputItem.function_call "c1" "get_last_build" "{}"]].length + 1) :=
  orchestration_model_call_count (fun _ => some (fun _ => "r")) [] "q"
    [[OutputItem.function_call "c1" "get_last_build" "{}"]]
    [OutputItem.message "done"] (by decide) (by rfl)

/-- C5 counterexample: the first model turn *contains* a ToolCallRequest
(one `function_call` entry, after a leading text item) and the second turn
contains none, so the claim predicts termination after exactly 2 model
calls with the tool executed; but the loop guard looks only at
`response.output[0].type`, sees `"message"`, and exits after a single model
call, never executing the request. -/
theorem loop_exits_on_mixed_first_turn :
    (requests [OutputItem.message "let me check",
        OutputItem.function_call "c1" "get_last_build" "{}"]).length = 1
    ∧ requests [OutputItem.message "done"] = []
    ∧ runQuestion (fun _ => some (fun _ => "r")) [] "q"
        [Except.ok [OutputItem.message "let me check",
            OutputItem.function_call "c1" "get_last_build" "{}"],
         Except.ok [OutputItem.message "done"]]
      = Outcome.answered [ConvItem.chat "user" "q",
          ConvItem.chat "assistant" "let me check"] 1 := by
  refine ⟨by decide, by decide, ?_⟩
  show runLoop (fun _ => some (fun _ => "r")) [ConvItem.chat "user" "q"]
      [Except.ok [OutputItem.message "done"]]
      [OutputItem.message "let me check",
       OutputItem.function_call "c1" "get_last_build" "{}"] 1
    = _
  rw [runLoop_exit _ _ _ _ _ (by rfl)]
  decide

theorem processTurnAux_isSome_of_unknown (registry : ToolRegistry) :
    ∀ (turn : List OutputItem),
      (∃ r ∈ requests turn, registry r.2.1 = none) →
      ((processTurnAux registry turn).2).isSome := by
  intro turn
  induction turn with
  | nil => intro h; simp [requests] at h
  | cons i rest ih =>
    intro h
    cases i with
    | message c =>
      rw [processTurnAux]
      exact ih (by simpa [requests, List.filterMap_cons] using h)
    | function_call call_id tool_name args =>
      rw [processTurnAux]
      cases hr : registry tool_name with
      | none => simp
      | some f =>
        simp only []
        refine ih ?_
        obtain ⟨r, hmem, hnone⟩ := h
        simp only [requests, List.filterMap_cons] at hmem
        rcases List.mem_cons.mp hmem with heq | htail
        · exfalso
          rw [heq] at hnone
          simp at hnone
          rw [hnone] at hr
          exact Option.noConfusion hr
        · exact ⟨r, htail, hnone⟩

/-- C7 (amended): if the current model turn is a tool-call turn (one
beginning with a `function_call` output item, the only form the loop guard
processes) and some ToolCallRequest in it names a tool the registry does
not define, the orchestration aborts with a reported error and issues no
further model call for that question (the call counter is unchanged in the
`aborted` outcome); the per-question driver still yields one outcome per
question, i.e. processing moves on to the next question. -/
theorem unknown_tool_aborts (registry : ToolRegistry)
    (conversation : List ConvItem) (stub : ModelStub)
    (current : List OutputItem) (calls : Nat)
    (h1 : isToolCallTurn current = true)
    (h2 : ∃ r ∈ requests current, registry r.2.1 = none) :
    (∃ e conversation',
      runLoop registry conversation stub current calls
        = Outcome.aborted e conversation' calls)
    ∧ ∀ (qs : List (String × ModelStub)) (conversation₀ : List ConvItem),
        (runQuestions registry conversation₀ qs).length = qs.length := by
  constructor
  · obtain ⟨e, he⟩ := Option.isSome_iff_exists.mp
      (processTurnAux_isSome_of_unknown registry current h2)
    refine ⟨e, (conversation ++ current.map ConvItem.output
      ++ (processTurnAux registry current).1), ?_⟩
    exact runLoop_abort registry conversation stub current calls e h1 he
  · exact fun qs conversation₀ => runQuestions_length registry qs conversation₀

/-- Witness for `unknown_tool_aborts`: a turn requesting the undefined tool
`mystery_tool` against an empty registry aborts with the call counter still
at 2. -/
theorem unknown_tool_aborts_witness :
    (∃ e conversation',
      runLoop (fun _ => none) [] []
          [OutputItem.function_call "c9" "mystery_tool" "{}"] 2
        = Outcome.aborted e conversation' 2)
    ∧ ∀ (qs : List (String × ModelStub)) (conversation₀ : List ConvItem),
        (runQuestions (fun _ => none) conversation₀ qs).length = qs.length :=
  unknown_tool_aborts (fun _ => none) [] []
    [OutputItem.function_call "c9" "mystery_tool" "{}"] 2 rfl
    ⟨("c9", "mystery_tool", "{}"), by decide, rfl⟩

/-- C7 counterexample: a model turn whose request for the undefined
`mystery_tool` follows a leading non-`function_call` item.  The turn
requests a tool name that is not among the defined tool functions, yet the
loop guard `response.output[0].type == "function_call"` sees `"message"`
and exits: `eval` is never reached, no error is raised or reported for the
question, and the orchestrator answers normally — refuting the claim that
an unknown tool name in a turn always produces a reported error. -/
theorem unknown_tool_unreported_on_mixed_turn :
    requests [OutputItem.message "hmm",
        OutputItem.function_call "c1" "mystery_tool" "{}"]
      = [("c1", "mystery_tool", "{}")]
    ∧ (fun _ => (none : Option (String → String))) "mystery_tool" = none
    ∧ runQuestion (fun _ => none) [] "q"
        [Except.ok [OutputItem.message "hmm",
            OutputItem.function_call "c1" "mystery_tool" "{}"]]
      = Outcome.answered [ConvItem.chat "user" "q",
          ConvItem.chat "assistant" "hmm"] 1 := by
  refine ⟨by decide, rfl, ?_⟩
  show runLoop (fun _ => none) [ConvItem.chat "user" "q"] []
      [OutputItem.message "hmm",
       OutputItem.function_call "c1" "mystery_tool" "{}"] 1
    = _
  rw [runLoop_exit _ _ _ _ _ (by rfl)]
  decide

/-- C3 / the inner `except` clause (`10_function_calling.py` lines 353-355):
evaluation of the orchestration at a stub whose second model call raises a
provider error.  The claim (and spec §7) says the question is abandoned
once the error is reported, with no further model call; the code's
`continue` instead re-enters the `while` loop with the stale tool-call
response, appends and executes the already-processed turn a second time
(duplicated entries below), issues a third model call, and answers. -/
theorem inner_model_error_retries :
    runQuestion (fun _ => some (fun _ => "out")) [] "q"
        [Except.ok [OutputItem.function_call "id1" "get_last_build" "{}"],
         Except.error "APIConnectionError",
         Except.ok [OutputItem.message "final answer"]]
      = Outcome.answered
          [ConvItem.chat "user" "q",
           ConvItem.output (OutputItem.function_call "id1" "get_last_build" "{}"),
           ConvItem.function_call_output "id1" "out",
           ConvItem.output (OutputItem.function_call "id1" "get_last_build" "{}"),
           ConvItem.function_call_output "id1" "out",
           ConvItem.chat "assistant" "final answer"] 3 := by
  show runLoop (fun _ => some (fun _ => "out")) [ConvItem.chat "user" "q"]
      [Except.error "APIConnectionError",
       Except.ok [OutputItem.message "final answer"]]
      [OutputItem.function_call "id1" "get_last_build" "{}"] 1
    = _
  rw [runLoop_err_cons _ _ _ _ _ _ (by rfl) (by rfl),
    runLoop_ok_cons _ _ _ _ _ _ (by rfl) (by rfl),
    runLoop_exit _ _ _ _ _ (by rfl)]
  decide

end FunctionCalling

namespace StreamingChat

/-!
The streaming consumer of `07_streaming_responses.py` (lines 100-111): a
single `for chunk in response` loop that pattern-matches the chunk type,
prints each text delta as it arrives, appends the complete assistant
message to the conversation history when a `response.completed` chunk is
seen, and `break`s on a `response.error` chunk.
-/

/-- The chunk types the loop distinguishes: `response.created`,
`response.output_text.delta` (with its text payload),
`response.completed` (with the complete response text read from
`chunk.response.output[0].content[0].text`), and `response.error`
(with its error message). -/
inductive Chunk
  | created
  | delta (text : String)
  | completed (text : String)
  | error (message : String)
deriving DecidableEq

def is_error : Chunk → Bool
  | Chunk.error _ => true
  | _ => false

def is_completed : Chunk → Bool
  | Chunk.completed _ => true
  | _ => false

/-- The text payload a chunk prints, if any. -/
def deltaText : Chunk → Option String
  | Chunk.delta t => some t
  | _ => none

/-- The assistant message a chunk appends to the conversation, if any. -/
def assistantOf : Chunk → Option (String × String)
  | Chunk.completed t => some ("assistant", t)
  | _ => none

/-- The `for chunk in response` loop.  State: the conversation history (a
list of (role, content) pairs) and the ordered list of delta payloads
printed so far.  Returns the final history, the printed payloads, and the
chunks left unconsumed (nonempty only when an error chunk `break`s out of
the loop). -/
def consumeStream : List Chunk → List (String × String) → List String →
    List (String × String) × List String × List Chunk
  | [], conversation, printed => (conversation, printed, [])
  | Chunk.created :: rest, conversation, printed =>
      consumeStream rest conversation printed
  | Chunk.delta t :: rest, conversation, printed =>
      consumeStream rest conversation (printed ++ [t])
  | Chunk.completed t :: rest, conversation, printed =>
      consumeStream rest (conversation ++ [("assistant", t)]) printed
  | Chunk.error _ :: rest, conversation, printed => (conversation, printed, rest)

/-- C8: chunks are processed strictly in arrival order; the delta payloads
printed are exactly those of the chunks before the first error chunk, in
arrival order and still visible (the accumulated `printed` list is only
ever extended); consumption stops at the first error chunk, leaving every
later chunk unconsumed. -/
theorem consumeStream_stops_at_first_error
    (pre post : List Chunk) (conversation : List (String × String))
    (printed : List String) (m : String)
    (h : ∀ c ∈ pre, is_error c = false) :
    consumeStream (pre ++ Chunk.error m :: post) conversation printed
      = (conversation ++ pre.filterMap assistantOf,
         printed ++ pre.filterMap deltaText, post) := by
  induction pre generalizing conversation printed with
  | nil => simp [consumeStream]
  | cons c rest ih =>
    cases c with
    | created =>
      rw [List.cons_append, consumeStream,
        ih conversation printed (fun x hx => h x (by simp [hx]))]
      simp [assistantOf, deltaText, List.filterMap_cons]
    | delta t =>
      rw [List.cons_append, consumeStream,
        ih conversation (printed ++ [t]) (fun x hx => h x (by simp [hx]))]
      simp [assistantOf, deltaText, List.filterMap_cons]
    | completed t =>
      rw [List.cons_append, consumeStream,
        ih (conversation ++ [("assistant", t)]) printed (fun x hx => h x (by simp [hx]))]
      simp [assistantOf, deltaText, List.filterMap_cons]
    | error e =>
      exact absurd (h (Chunk.error e) (by simp)) (by simp [is_error])

/-- Witness for `consumeStream_stops_at_first_error`: two deltas and an
unrelated created chunk precede the error; a delta after the error is left
unconsumed. -/
theorem consumeStream_stops_at_first_error_witness :
    consumeStream
        ([Chunk.created, Chunk.delta "Hel", Chunk.delta "lo"]
          ++ Chunk.error "rate limit" :: [Chunk.delta "never"])
        [("developer", "sys")] []
      = ([("developer", "sys")]
          ++ [Chunk.created, Chunk.delta "Hel", Chunk.delta "lo"].filterMap assistantOf,
         [] ++ [Chunk.created, Chunk.delta "Hel", Chunk.delta "lo"].filterMap deltaText,
         [Chunk.delta "never"]) :=
  consumeStream_stops_at_first_error
    [Chunk.created, Chunk.delta "Hel", Chunk.delta "lo"] [Chunk.delta "never"]
    [("developer", "sys")] [] "rate limit" (by decide)

theorem consumeStream_conversation :
    ∀ (chunks : List Chunk) (conversation : List (String × String))
      (printed : List String),
      (consumeStream chunks conversation printed).1
        = conversation
            ++ (chunks.takeWhile (fun c => !(is_error c))).filterMap assistantOf := by
  intro chunks
  induction chunks with
  | nil => intro conversation printed; simp [consumeStream]
  | cons c rest ih =>
    intro conversation printed
    cases c with
    | created =>
      rw [consumeStream, ih]
      simp [is_error, assistantOf, List.takeWhile_cons, List.filterMap_cons]
    | delta t =>
      rw [consumeStream, ih]
      simp [is_error, assistantOf, List.takeWhile_cons, List.filterMap_cons]
    | completed t =>
      rw [consumeStream, ih]
      simp [is_error, assistantOf, List.takeWhile_cons, List.filterMap_cons]
    | error m =>
      rw [consumeStream]
      simp [is_error, List.takeWhile_cons]

theorem takeWhile_append_of_all {α : Type} (p : α → Bool) :
    ∀ (l r : List α), (∀ c ∈ l, p c = true) →
      (l ++ r).takeWhile p = l ++ r.takeWhile p := by
  intro l
  induction l with
  | nil => intro r _; simp
  | cons x rest ih =>
    intro r h
    rw [List.cons_append, List.takeWhile_cons, if_pos (h x (by simp)),
      ih r (fun c hc => h c (by simp [hc]))]
    rfl

theorem assistantOf_eq_none_of_not_completed (c : Chunk)
    (h : is_completed c = false) : assistantOf c = none := by
  cases c <;> simp_all [is_completed, assistantOf]

theorem filterMap_assistantOf_eq_nil (pre : List Chunk)
    (h : ∀ c ∈ pre, is_completed c = false) : pre.filterMap assistantOf = [] := by
  induction pre with
  | nil => rfl
  | cons c rest ih =>
    rw [List.filterMap_cons,
      assistantOf_eq_none_of_not_completed c (h c (by simp)),
      ih (fun x hx => h x (by simp [hx]))]

/-- C10: in the streaming chat loop, the conversation history gains an
assistant message exactly when a `response.completed` chunk is consumed:
if an error chunk ends the stream before any completed chunk, the history
is exactly what it was after the user's question was appended (even though
delta payloads were already printed), while a completed chunk appends the
assistant message (followed by whatever later completed chunks are consumed
before an error). -/
theorem stream_history_append_iff (pre post : List Chunk)
    (conversation : List (String × String)) (printed : List String) (m t : String)
    (h : ∀ c ∈ pre, is_completed c = false ∧ is_error c = false) :
    (consumeStream (pre ++ Chunk.error m :: post) conversation printed).1
      = conversation
    ∧ (consumeStream (pre ++ Chunk.completed t :: post) conversation printed).1
      = conversation ++ [("assistant", t)]
        ++ (post.takeWhile (fun c => !(is_error c))).filterMap assistantOf := by
  constructor
  · rw [consumeStream_conversation,
      takeWhile_append_of_all _ pre _ (fun c hc => by simp [(h c hc).2])]
    rw [show (Chunk.error m :: post).takeWhile (fun c => !(is_error c)) = []
      from by simp [List.takeWhile_cons, is_error]]
    rw [List.append_nil,
      filterMap_assistantOf_eq_nil pre (fun c hc => (h c hc).1),
      List.append_nil]
  · rw [consumeStream_conversation,
      takeWhile_append_of_all _ pre _ (fun c hc => by simp [(h c hc).2])]
    rw [show (Chunk.completed t :: post).takeWhile (fun c => !(is_error c))
        = Chunk.completed t :: post.takeWhile (fun c => !(is_error c))
      from by simp [List.takeWhile_cons, is_error]]
    rw [List.filterMap_append,
      filterMap_assistantOf_eq_nil pre (fun c hc => (h c hc).1)]
    simp [assistantOf, List.filterMap_cons]

/-- Witness for `stream_history_append_iff`: a created chunk and a printed
delta precede the terminal chunk. -/
theorem stream_history_append_iff_witness :
    (consumeStream ([Chunk.created, Chunk.delta "par"]
        ++ Chunk.error "boom" :: [Chunk.delta "x"]) [("user", "q")] []).1
      = [("user", "q")]
    ∧ (consumeStream ([Chunk.created, Chunk.delta "par"]
        ++ Chunk.completed "full" :: [Chunk.delta "x"]) [("user", "q")] []).1
      = [("user", "q")] ++ [("assistant", "full")]
        ++ ([Chunk.delta "x"].takeWhile (fun c => !(is_error c))).filterMap assistantOf :=
  stream_history_append_iff [Chunk.created, Chunk.delta "par"] [Chunk.delta "x"]
    [("user", "q")] [] "boom" "full" (by decide)

end StreamingChat
